import Mathlib

/-!
Shallow embedding of the batched/paginated Gmail message-retrieval layer
from `apps/web/utils/gmail/message.ts`.

Modelling conventions:
- `ParsedMessage` and `RawMessage` are opaque to this layer; we model both as
  `String` and take the external parser `parseMessage` as a function parameter
  `parse : String → String`.
- The remote `batchGet` primitive is modelled as an environment
  `env : Nat → List String → List BatchItem`: given the current retry level
  (the remote's behaviour may differ between attempts, which is what retrying
  is for) and the requested id list, it yields the positionally aligned list
  of per-item results.
- The remote `list` primitive is modelled as
  `listEnv : Nat → Option String → ListResp` (requested maxResults, pageToken).
- Side effects are made explicit in the return value: slept delays (ms),
  network calls issued, and abandonment log events are collected in trace
  fields, and a thrown exception becomes an `err` result.
-/

/-- One positional item of a `batchGet` response: either a raw message or a
per-item error `{error: {code, message}}` (cf. `isBatchError`). -/
inductive BatchItem where
  | success (raw : String)
  | failure (code : Nat) (message : String)
  deriving DecidableEq, Repr

/-- Outcome of `getMessagesBatch`: the returned `ParsedMessage[]`, or a thrown
exception with its message. -/
inductive MResult where
  | ok (messages : List String)
  | err (msg : String)
  deriving DecidableEq, Repr

/-- Result of `getMessagesBatch` together with its observable side effects:
the milliseconds slept before each retry (in order), the `getBatch` network
calls issued (retry level and id list, in order), and the "Too many retries"
abandonment log events (retry level and the ids abandoned there). -/
structure FetchOut where
  result : MResult
  delays : List Nat
  calls : List (Nat × List String)
  abandoned : List (Nat × List String)
  deriving DecidableEq, Repr

/-- JS `Set.add`: append an element unless already present (insertion order is
preserved, duplicates collapse to the first insertion). -/
def insertId (l : List String) (x : String) : List String :=
  if x ∈ l then l else l ++ [x]

/-- `Array.from` of a JS `Set` built by inserting the elements of `l` in
order: first-occurrence deduplication. -/
def dedupFirst (l : List String) : List String :=
  l.foldl insertId []

/-- The `missingMessageIds` set built by `getMessagesBatch`: the ids whose
positional batch item `isBatchError`, in batch order, deduplicated with JS
`Set` semantics. (The source indexes `messageIds[i]` while mapping over
`batch`; the zip reflects the positional alignment of the batch response.) -/
def missingOf (messageIds : List String) (batch : List BatchItem) : List String :=
  dedupFirst ((messageIds.zip batch).filterMap fun p =>
    match p.2 with
    | .failure _ _ => some p.1
    | .success _ => none)

/-- The `messages` array built by `getMessagesBatch`: each non-error batch
item is handed to `parseMessage`, errors are filtered out (`filter(isDefined)`
after mapping errors to `undefined`). -/
def parsedOf (parse : String → String) (batch : List BatchItem) : List String :=
  batch.filterMap fun b =>
    match b with
    | .success raw => some (parse raw)
    | .failure _ _ => none

/-- `getMessagesBatch(messageIds, accessToken, retryCount = 0)` from
`message.ts` lines 56-106. If `retryCount > 3` it logs "Too many retries" and
returns `[]`; if more than 100 ids are given it throws; otherwise it issues
one `getBatch` call, parses the successes, and if any id failed it sleeps
`1000 * (retryCount+1)` ms and recurses on exactly the missing ids with
`retryCount + 1`, prepending this level's parsed messages to the recursive
result. -/
def getMessagesBatch (env : Nat → List String → List BatchItem)
    (parse : String → String) (messageIds : List String) (retryCount : Nat) :
    FetchOut :=
  if _h : retryCount > 3 then
    { result := .ok [], delays := [], calls := [],
      abandoned := [(retryCount, messageIds)] }
  else if messageIds.length > 100 then
    { result := .err "Too many messages. Max 1000", delays := [], calls := [],
      abandoned := [] }
  else
    let batch := env retryCount messageIds
    let missing := missingOf messageIds batch
    let messages := parsedOf parse batch
    if missing.isEmpty then
      { result := .ok messages, delays := [], calls := [(retryCount, messageIds)],
        abandoned := [] }
    else
      let next := getMessagesBatch env parse missing (retryCount + 1)
      { result :=
          match next.result with
          | .ok rest => .ok (messages ++ rest)
          | .err e => .err e,
        delays := 1000 * (retryCount + 1) :: next.delays,
        calls := (retryCount, messageIds) :: next.calls,
        abandoned := next.abandoned }
termination_by 4 - retryCount
decreasing_by omega

/-- Fuel-indexed companion of `getMessagesBatch`, used to compute: structurally
recursive, so concrete instances reduce in the kernel. `fetchGo_eq` shows it
agrees with `getMessagesBatch` whenever the fuel exceeds the retry budget
`4 - retryCount`, which `getMessagesBatch_eq_go` instantiates at fuel 5. -/
def fetchGo (env : Nat → List String → List BatchItem)
    (parse : String → String) :
    Nat → List String → Nat → FetchOut
  | 0, messageIds, retryCount =>
      { result := .ok [], delays := [], calls := [],
        abandoned := [(retryCount, messageIds)] }
  | fuel + 1, messageIds, retryCount =>
      if retryCount > 3 then
        { result := .ok [], delays := [], calls := [],
          abandoned := [(retryCount, messageIds)] }
      else if messageIds.length > 100 then
        { result := .err "Too many messages. Max 1000", delays := [], calls := [],
          abandoned := [] }
      else
        let batch := env retryCount messageIds
        let missing := missingOf messageIds batch
        let messages := parsedOf parse batch
        if missing.isEmpty then
          { result := .ok messages, delays := [],
            calls := [(retryCount, messageIds)], abandoned := [] }
        else
          let next := fetchGo env parse fuel missing (retryCount + 1)
          { result :=
              match next.result with
              | .ok rest => .ok (messages ++ rest)
              | .err e => .err e,
            delays := 1000 * (retryCount + 1) :: next.delays,
            calls := (retryCount, messageIds) :: next.calls,
            abandoned := next.abandoned }

/-- A `gmail.users.messages.list` response as used by `queryBatchMessages`:
the optional `messages` array (each item with an optional `id`) and the
optional `nextPageToken`. The distinction between an absent `messages` field
and a present-but-empty array is kept, because the source's truthiness guard
`if (!messages.messages)` distinguishes them. -/
structure ListResp where
  messages : Option (List (Option String))
  nextPageToken : Option String
  deriving DecidableEq, Repr

/-- Outcome of `queryBatchMessages`: the `{messages, nextPageToken}` record,
or a thrown exception. -/
inductive QResult where
  | ok (messages : List String) (nextPageToken : Option String)
  | err (msg : String)
  deriving DecidableEq, Repr

/-- Result of `queryBatchMessages` with its observable side effects: the
`list` calls issued (requested maxResults and pageToken) and the `getBatch`
network calls made through `getMessagesBatch`. -/
structure QueryOut where
  result : QResult
  listCalls : List (Nat × Option String)
  batchCalls : List (Nat × List String)
  deriving DecidableEq, Repr

/-- `queryBatchMessages(gmail, accessToken, {query, maxResults = 20, pageToken})`
from `message.ts` lines 211-237. Throws if `maxResults > 20`; otherwise calls
`getMessages` (the `list` primitive), short-circuits when the response has no
`messages` field, and otherwise batch-fetches the defined ids with
`getMessagesBatch(messageIds, accessToken)` (default retry count 0) and
returns them with the response's `nextPageToken`. -/
def queryBatchMessages (listEnv : Nat → Option String → ListResp)
    (batchEnv : Nat → List String → List BatchItem) (parse : String → String)
    (maxResults : Nat := 20) (pageToken : Option String := none) : QueryOut :=
  if maxResults > 20 then
    { result :=
        .err "Max results must be 20 or Google will rate limit us and return 429 errors.",
      listCalls := [], batchCalls := [] }
  else
    let resp := listEnv maxResults pageToken
    match resp.messages with
    | none =>
        { result := .ok [] none, listCalls := [(maxResults, pageToken)],
          batchCalls := [] }
    | some items =>
        let messageIds := items.filterMap id
        let fetched := getMessagesBatch batchEnv parse messageIds 0
        { result :=
            match fetched.result with
            | .ok msgs => .ok msgs resp.nextPageToken
            | .err e => .err e,
          listCalls := [(maxResults, pageToken)],
          batchCalls := fetched.calls }

/-- Computable companion of `queryBatchMessages` (uses `fetchGo` at fuel 5);
`queryBatchMessages_eq_C` shows they agree. -/
def queryBatchMessagesC (listEnv : Nat → Option String → ListResp)
    (batchEnv : Nat → List String → List BatchItem) (parse : String → String)
    (maxResults : Nat := 20) (pageToken : Option String := none) : QueryOut :=
  if maxResults > 20 then
    { result :=
        .err "Max results must be 20 or Google will rate limit us and return 429 errors.",
      listCalls := [], batchCalls := [] }
  else
    let resp := listEnv maxResults pageToken
    match resp.messages with
    | none =>
        { result := .ok [] none, listCalls := [(maxResults, pageToken)],
          batchCalls := [] }
    | some items =>
        let messageIds := items.filterMap id
        let fetched := fetchGo batchEnv parse 5 messageIds 0
        { result :=
            match fetched.result with
            | .ok msgs => .ok msgs resp.nextPageToken
            | .err e => .err e,
          listCalls := [(maxResults, pageToken)],
          batchCalls := fetched.calls }

/-- Outcome of `queryBatchMessagesPages`: the accumulated `ParsedMessage[]`
(or a propagated exception) together with every `list` call issued (requested
maxResults and the pageToken threaded into it), in order. -/
structure PagesOut where
  result : MResult
  listCalls : List (Nat × Option String)
  deriving DecidableEq, Repr

/-- The `do … while (nextPageToken && messages.length < maxResults)` loop of
`queryBatchMessagesPages` (`message.ts` lines 250-263), with explicit fuel:
`none` means the fuel ran out before the loop exited (the source loop has no
intrinsic bound: a remote that keeps returning tokens and empty pages loops
forever). Each iteration calls `queryBatchMessages` without `maxResults`, so
with the default page size 20; `nextPageToken = nextToken || undefined` turns
an empty-string token into an absent one. -/
def queryPagesGo (listEnv : Nat → Option String → ListResp)
    (batchEnv : Nat → List String → List BatchItem) (parse : String → String)
    (maxResults : Nat) :
    Nat → List String → List (Nat × Option String) → Option String →
      Option PagesOut
  | 0, _, _, _ => none
  | fuel + 1, acc, calls, pageToken =>
      let q := queryBatchMessages listEnv batchEnv parse 20 pageToken
      match q.result with
      | .err e => some { result := .err e, listCalls := calls ++ q.listCalls }
      | .ok pageMessages nextToken =>
          let acc2 := acc ++ pageMessages
          let calls2 := calls ++ q.listCalls
          let nextPageToken : Option String :=
            match nextToken with
            | some t => if t = "" then none else some t
            | none => none
          if nextPageToken.isSome && decide (acc2.length < maxResults) then
            queryPagesGo listEnv batchEnv parse maxResults fuel acc2 calls2
              nextPageToken
          else
            some { result := .ok acc2, listCalls := calls2 }

/-- `queryBatchMessagesPages(gmail, accessToken, {query, maxResults})` from
`message.ts` lines 240-264: run the page loop starting with no page token and
an empty accumulator. -/
def queryBatchMessagesPages (listEnv : Nat → Option String → ListResp)
    (batchEnv : Nat → List String → List BatchItem) (parse : String → String)
    (maxResults : Nat) (fuel : Nat) : Option PagesOut :=
  queryPagesGo listEnv batchEnv parse maxResults fuel [] [] none

/-- Computable companion of `queryPagesGo` built on `queryBatchMessagesC`. -/
def queryPagesGoC (listEnv : Nat → Option String → ListResp)
    (batchEnv : Nat → List String → List BatchItem) (parse : String → String)
    (maxResults : Nat) :
    Nat → List String → List (Nat × Option String) → Option String →
      Option PagesOut
  | 0, _, _, _ => none
  | fuel + 1, acc, calls, pageToken =>
      let q := queryBatchMessagesC listEnv batchEnv parse 20 pageToken
      match q.result with
      | .err e => some { result := .err e, listCalls := calls ++ q.listCalls }
      | .ok pageMessages nextToken =>
          let acc2 := acc ++ pageMessages
          let calls2 := calls ++ q.listCalls
          let nextPageToken : Option String :=
            match nextToken with
            | some t => if t = "" then none else some t
            | none => none
          if nextPageToken.isSome && decide (acc2.length < maxResults) then
            queryPagesGoC listEnv batchEnv parse maxResults fuel acc2 calls2
              nextPageToken
          else
            some { result := .ok acc2, listCalls := calls2 }

/-- `findPreviousEmailsWithSender(gmail, {sender, dateInSeconds})` from
`message.ts` lines 108-138: two `list` searches, incoming
`from:<sender> before:<dateInSeconds>` with `maxResults: 2` and outgoing
`to:<sender> before:<dateInSeconds>` with `maxResults: 1`, concatenated
(incoming first). The search primitive is modelled as
`searchEnv : String → Nat → List (Option String)` taking the query string and
the requested maxResults and returning the listed items' optional ids
(`messages || []`, so an absent `messages` field is the empty list). The
`+new Date(date) / 1000` conversion in the caller is outside the model: the
timestamp is taken directly in epoch seconds. -/
def findPreviousEmailsWithSender (searchEnv : String → Nat → List (Option String))
    (sender : String) (dateInSeconds : Nat) : List (Option String) :=
  let incoming := searchEnv ("from:" ++ sender ++ " before:" ++ toString dateInSeconds) 2
  let outgoing := searchEnv ("to:" ++ sender ++ " before:" ++ toString dateInSeconds) 1
  incoming ++ outgoing

/-- `hasPreviousCommunicationWithSender(gmail, {from, date, messageId})` from
`message.ts` lines 140-154: true iff some found message's id differs from
`messageId` (`!!previousEmails?.find((p) => p.id !== options.messageId)`; a
message with an absent id also counts, as `undefined !== messageId`). -/
def hasPreviousCommunicationWithSender
    (searchEnv : String → Nat → List (Option String)) (from_ : String)
    (dateInSeconds : Nat) (messageId : String) : Bool :=
  (findPreviousEmailsWithSender searchEnv from_ dateInSeconds).any
    fun p => p != some messageId

/-- The `PUBLIC_DOMAINS` set from `message.ts` lines 156-170, verbatim:
note the `"@me.com"` and `"@hey.com"` entries keep their leading `@`. -/
def PUBLIC_DOMAINS : List String :=
  ["gmail.com", "yahoo.com", "hotmail.com", "outlook.com", "aol.com",
   "icloud.com", "@me.com", "protonmail.com", "zoho.com", "yandex.com",
   "fastmail.com", "gmx.com", "@hey.com"]

/-- The characters after the first `'@'` of a character list, or `none` when
there is no `'@'`. -/
def domainChars : List Char → Option (List Char)
  | [] => none
  | c :: rest => if c = '@' then some rest else domainChars rest

/-- Modelled from the spec: `extractDomainFromEmail` (imported from
`@/utils/email`, which is not part of this slice) "resolves the sender's
domain" — the part of the address after the `'@'`, or nothing when the
address has no such domain part. -/
def extractDomainFromEmail (email : String) : Option String :=
  match domainChars email.toList with
  | none => none
  | some [] => none
  | some cs => some (String.mk cs)

/-- ASCII lowercasing of one character, as JS `toLowerCase` acts on the
ASCII domain strings this layer compares. -/
def lowerChar (c : Char) : Char :=
  if 'A' ≤ c ∧ c ≤ 'Z' then Char.ofNat (c.toNat + 32) else c

/-- `domain.toLowerCase()`: ASCII lowercasing, character by character. -/
def toLowerStr (s : String) : String :=
  String.mk (s.toList.map lowerChar)

/-- The search-term choice of `hasPreviousCommunicationsWithSenderOrDomain`
(`message.ts` lines 176-183): when no domain can be extracted the options are
passed through unchanged (so the term is the full sender address); otherwise
the full address exactly when the lowercased domain is a member of
`PUBLIC_DOMAINS`, and the bare domain otherwise. -/
def senderSearchTerm (from_ : String) : String :=
  match extractDomainFromEmail from_ with
  | none => from_
  | some domain =>
      if PUBLIC_DOMAINS.contains (toLowerStr domain) then from_ else domain

/-- `hasPreviousCommunicationsWithSenderOrDomain(gmail, options)` from
`message.ts` lines 172-189: delegate to `hasPreviousCommunicationWithSender`
with `from` replaced by the chosen search term. -/
def hasPreviousCommunicationsWithSenderOrDomain
    (searchEnv : String → Nat → List (Option String)) (from_ : String)
    (dateInSeconds : Nat) (messageId : String) : Bool :=
  hasPreviousCommunicationWithSender searchEnv (senderSearchTerm from_)
    dateInSeconds messageId

/-! Concrete environments used to exercise the model on the scenarios the
specification describes. -/

/-- The identity parser: keeps concrete runs readable. -/
def idParse : String → String := fun s => s

/-- A remote that answers every batch item successfully, returning the id
itself as the raw message. -/
def envAllOk : Nat → List String → List BatchItem :=
  fun _ ids => ids.map .success

/-- A remote that fails every item at retry levels 0 and 1 and succeeds from
level 2 on (raw message `"R" ++ id`): an id that fails on the first two
attempts and succeeds on the third. -/
def envThirdTry : Nat → List String → List BatchItem :=
  fun retryCount ids =>
    ids.map fun i =>
      if retryCount ≥ 2 then .success ("R" ++ i) else .failure 500 "e"

/-- A remote where id `"good"` always succeeds (raw message `"G"`) and every
other id always fails, at every retry level. -/
def envBadGood : Nat → List String → List BatchItem :=
  fun _ ids =>
    ids.map fun i => if i = "good" then .success "G" else .failure 500 "err"

/-- A `list` remote serving three full pages of 20 ids each, with a further
page token after the third page. -/
def listEnvA : Nat → Option String → ListResp :=
  fun _ pageToken =>
    match pageToken with
    | none => { messages := some (List.replicate 20 (some "a")),
                nextPageToken := some "t1" }
    | some "t1" => { messages := some (List.replicate 20 (some "b")),
                     nextPageToken := some "t2" }
    | some "t2" => { messages := some (List.replicate 20 (some "c")),
                     nextPageToken := some "t3" }
    | some _ => { messages := none, nextPageToken := none }

/-- A `list` remote serving pages of 20, 20 and 3 ids, the last page with no
further token. -/
def listEnvB : Nat → Option String → ListResp :=
  fun _ pageToken =>
    match pageToken with
    | none => { messages := some (List.replicate 20 (some "a")),
                nextPageToken := some "t1" }
    | some "t1" => { messages := some (List.replicate 20 (some "b")),
                     nextPageToken := some "t2" }
    | some "t2" => { messages := some (List.replicate 3 (some "c")),
                     nextPageToken := none }
    | some _ => { messages := none, nextPageToken := none }

/-- A `list` remote whose response carries a present-but-empty `messages`
array together with a next-page token. -/
def listEnvEmptyArr : Nat → Option String → ListResp :=
  fun _ _ => { messages := some [], nextPageToken := some "tok" }

/-- A `list` remote whose response has no `messages` field at all. -/
def listEnvNoField : Nat → Option String → ListResp :=
  fun _ _ => { messages := none, nextPageToken := some "tok" }

/-- A search remote for which every search returns exactly the one message
`"cur"`. -/
def envOnlyCur : String → Nat → List (Option String) :=
  fun _ _ => [some "cur"]

/-! Bridging theorems: the fuel-indexed companions agree with the directly
recursive functions, so concrete runs can be evaluated in the kernel. -/

theorem fetchGo_eq (env : Nat → List String → List BatchItem)
    (parse : String → String) :
    ∀ (fuel : Nat) (messageIds : List String) (retryCount : Nat),
      4 - retryCount < fuel →
      fetchGo env parse fuel messageIds retryCount =
        getMessagesBatch env parse messageIds retryCount := by
  intro fuel
  induction fuel with
  | zero => intro ids rc h; omega
  | succ fuel ih =>
      intro ids rc h
      rw [getMessagesBatch]
      by_cases hrc : rc > 3
      · simp [fetchGo, hrc]
      · by_cases hlen : ids.length > 100
        · simp [fetchGo, hrc, hlen]
        · by_cases hmiss : (missingOf ids (env rc ids)).isEmpty
          · simp [fetchGo, hrc, hlen, hmiss]
          · simp only [fetchGo, if_neg hrc, if_neg hlen, if_neg hmiss]
            rw [ih]
            · simp [hrc, hlen, hmiss]
            · omega

theorem getMessagesBatch_eq_go (env : Nat → List String → List BatchItem)
    (parse : String → String) (messageIds : List String) (retryCount : Nat) :
    getMessagesBatch env parse messageIds retryCount =
      fetchGo env parse 5 messageIds retryCount :=
  (fetchGo_eq env parse 5 messageIds retryCount (by omega)).symm

theorem queryBatchMessages_eq_C (listEnv : Nat → Option String → ListResp)
    (batchEnv : Nat → List String → List BatchItem) (parse : String → String)
    (maxResults : Nat) (pageToken : Option String) :
    queryBatchMessages listEnv batchEnv parse maxResults pageToken =
      queryBatchMessagesC listEnv batchEnv parse maxResults pageToken := by
  unfold queryBatchMessages queryBatchMessagesC
  simp only [getMessagesBatch_eq_go]

theorem queryPagesGo_eq_C (listEnv : Nat → Option String → ListResp)
    (batchEnv : Nat → List String → List BatchItem) (parse : String → String)
    (maxResults : Nat) :
    ∀ (fuel : Nat) (acc : List String) (calls : List (Nat × Option String))
      (pageToken : Option String),
      queryPagesGo listEnv batchEnv parse maxResults fuel acc calls pageToken =
        queryPagesGoC listEnv batchEnv parse maxResults fuel acc calls
          pageToken := by
  intro fuel
  induction fuel with
  | zero => intro acc calls tok; rfl
  | succ fuel ih =>
      intro acc calls tok
      simp only [queryPagesGo, queryPagesGoC, queryBatchMessages_eq_C]
      cases hq : (queryBatchMessagesC listEnv batchEnv parse 20 tok).result with
      | err e => rfl
      | ok pageMessages nextToken => simp only [ih]

/-! Helper lemmas about the missing-id set and the batch results. -/

theorem insertId_length_le (l : List String) (x : String) :
    (insertId l x).length ≤ l.length + 1 := by
  unfold insertId; split <;> simp

theorem foldl_insertId_length_le (l : List String) :
    ∀ acc : List String, (l.foldl insertId acc).length ≤ acc.length + l.length := by
  induction l with
  | nil => intro acc; simp
  | cons a t ih =>
      intro acc
      have h1 := ih (insertId acc a)
      have h2 := insertId_length_le acc a
      simp only [List.foldl_cons, List.length_cons]
      omega

theorem dedupFirst_length_le (l : List String) :
    (dedupFirst l).length ≤ l.length := by
  simpa [dedupFirst] using foldl_insertId_length_le l []

theorem missingOf_length_le (ids : List String) (batch : List BatchItem) :
    (missingOf ids batch).length ≤ ids.length := by
  unfold missingOf
  refine le_trans (dedupFirst_length_le _) (le_trans (List.length_filterMap_le _ _) ?_)
  simp [List.length_zip]

theorem missingOf_all_success (raw : String → String) (ids : List String) :
    missingOf ids (ids.map fun i => BatchItem.success (raw i)) = [] := by
  have h : (ids.zip (ids.map fun i => BatchItem.success (raw i))).filterMap
      (fun p => match p.2 with
        | .failure _ _ => some p.1
        | .success _ => none) = ([] : List String) := by
    induction ids with
    | nil => rfl
    | cons a t ih => simpa [List.filterMap_cons] using ih
  simp [missingOf, h, dedupFirst]

theorem parsedOf_map_success (parse raw : String → String) (ids : List String) :
    parsedOf parse (ids.map fun i => BatchItem.success (raw i)) =
      ids.map fun i => parse (raw i) := by
  induction ids with
  | nil => rfl
  | cons a t ih => simpa [parsedOf, List.filterMap_cons] using ih

theorem fetchGo_result_ok (env : Nat → List String → List BatchItem)
    (parse : String → String) :
    ∀ (fuel : Nat) (ids : List String) (rc : Nat), ids.length ≤ 100 →
      ∃ msgs, (fetchGo env parse fuel ids rc).result = .ok msgs := by
  intro fuel
  induction fuel with
  | zero => intro ids rc _; exact ⟨[], rfl⟩
  | succ fuel ih =>
      intro ids rc hlen
      have hlen' : ¬ ids.length > 100 := by omega
      by_cases hrc : rc > 3
      · exact ⟨[], by simp [fetchGo, hrc]⟩
      · by_cases hmiss : (missingOf ids (env rc ids)).isEmpty
        · exact ⟨parsedOf parse (env rc ids), by simp [fetchGo, hrc, hlen', hmiss]⟩
        · obtain ⟨msgs, hm⟩ := ih (missingOf ids (env rc ids)) (rc + 1)
            (le_trans (missingOf_length_le ids (env rc ids)) hlen)
          exact ⟨parsedOf parse (env rc ids) ++ msgs, by
            simp [fetchGo, hrc, hlen', hmiss, hm]⟩

theorem getMessagesBatch_result_ok (env : Nat → List String → List BatchItem)
    (parse : String → String) (ids : List String) (rc : Nat)
    (hlen : ids.length ≤ 100) :
    ∃ msgs, (getMessagesBatch env parse ids rc).result = .ok msgs := by
  rw [getMessagesBatch_eq_go]
  exact fetchGo_result_ok env parse 5 ids rc hlen

theorem fetchGo_calls_le (env : Nat → List String → List BatchItem)
    (parse : String → String) :
    ∀ (fuel : Nat) (ids : List String) (rc : Nat),
      (fetchGo env parse fuel ids rc).calls.length ≤ 4 - rc := by
  intro fuel
  induction fuel with
  | zero => intro ids rc; simp [fetchGo]
  | succ fuel ih =>
      intro ids rc
      by_cases hrc : rc > 3
      · simp [fetchGo, hrc]
      · by_cases hlen : ids.length > 100
        · simp [fetchGo, hrc, hlen]
        · by_cases hmiss : (missingOf ids (env rc ids)).isEmpty
          · simp [fetchGo, hrc, hlen, hmiss]; omega
          · have h := ih (missingOf ids (env rc ids)) (rc + 1)
            simp only [fetchGo, if_neg hrc, if_neg hlen, if_neg hmiss,
              List.length_cons]
            omega

/-- C1: for every id list of length at most 100 for which the remote batch
call reports no per-item failure, `getMessagesBatch` at the default retry
count 0 returns exactly the parser's output for each requested id's raw
message, one per id in request order — hence one ParsedMessage per requested
id, with no duplicates and no omissions — after a single network call, with
no retry delay and no abandonment. -/
theorem getMessagesBatch_no_failures (env : Nat → List String → List BatchItem)
    (parse raw : String → String) (messageIds : List String)
    (hlen : messageIds.length ≤ 100)
    (henv : env 0 messageIds = messageIds.map fun i => BatchItem.success (raw i)) :
    getMessagesBatch env parse messageIds 0 =
      { result := .ok (messageIds.map fun i => parse (raw i)), delays := [],
        calls := [(0, messageIds)], abandoned := [] } := by
  have hlen' : ¬ messageIds.length > 100 := by omega
  rw [getMessagesBatch]
  simp [henv, hlen', missingOf_all_success, parsedOf_map_success]

/-- C1 witness: a concrete two-id run against a remote with no failures. -/
theorem getMessagesBatch_no_failures_witness :
    (["a", "b"] : List String).length ≤ 100 ∧
    getMessagesBatch envAllOk idParse ["a", "b"] 0 =
      { result := .ok ["a", "b"], delays := [], calls := [(0, ["a", "b"])],
        abandoned := [] } :=
  ⟨by decide, by
    simpa using getMessagesBatch_no_failures envAllOk idParse id ["a", "b"]
      (by decide) rfl⟩

/-- C2: whenever the missing set after one batch call is non-empty (and the
guards pass), `getMessagesBatch` sleeps `(retryCount+1) * 1000` ms, recurses
on exactly the missing ids with `retryCount + 1`, and prepends this level's
parsed messages to the recursive result — so successes at any level are kept;
and concretely, an id that fails at retry levels 0 and 1 and succeeds at
level 2 is still delivered, after delays of 1000 ms then 2000 ms. -/
theorem getMessagesBatch_retry_step :
    (∀ (env : Nat → List String → List BatchItem) (parse : String → String)
       (messageIds : List String) (retryCount : Nat),
       retryCount ≤ 3 → messageIds.length ≤ 100 →
       missingOf messageIds (env retryCount messageIds) ≠ [] →
       ∃ rest,
         (getMessagesBatch env parse
             (missingOf messageIds (env retryCount messageIds))
             (retryCount + 1)).result = .ok rest ∧
         getMessagesBatch env parse messageIds retryCount =
           { result := .ok (parsedOf parse (env retryCount messageIds) ++ rest),
             delays := 1000 * (retryCount + 1) ::
               (getMessagesBatch env parse
                   (missingOf messageIds (env retryCount messageIds))
                   (retryCount + 1)).delays,
             calls := (retryCount, messageIds) ::
               (getMessagesBatch env parse
                   (missingOf messageIds (env retryCount messageIds))
                   (retryCount + 1)).calls,
             abandoned := (getMessagesBatch env parse
                 (missingOf messageIds (env retryCount messageIds))
                 (retryCount + 1)).abandoned }) ∧
    getMessagesBatch envThirdTry idParse ["x"] 0 =
      { result := .ok ["Rx"], delays := [1000, 2000],
        calls := [(0, ["x"]), (1, ["x"]), (2, ["x"])], abandoned := [] } := by
  constructor
  · intro env parse ids rc hrc hlen hmiss
    obtain ⟨rest, hrest⟩ := getMessagesBatch_result_ok env parse
      (missingOf ids (env rc ids)) (rc + 1)
      (le_trans (missingOf_length_le ids (env rc ids)) hlen)
    refine ⟨rest, hrest, ?_⟩
    have h1 : ¬ rc > 3 := by omega
    have h2 : ¬ ids.length > 100 := by omega
    have h3 : ¬ (missingOf ids (env rc ids)).isEmpty := by
      simpa using hmiss
    rw [getMessagesBatch]
    simp [h1, h2, h3, hrest]
  · rw [getMessagesBatch_eq_go]
    decide

/-- C2 witness: the retry-step theorem applied to the third-try remote at the
default retry count. -/
theorem getMessagesBatch_retry_step_witness :
    (0 : Nat) ≤ 3 ∧ (["x"] : List String).length ≤ 100 ∧
    missingOf ["x"] (envThirdTry 0 ["x"]) ≠ [] ∧
    ∃ rest,
      (getMessagesBatch envThirdTry idParse
          (missingOf ["x"] (envThirdTry 0 ["x"])) 1).result = .ok rest ∧
      getMessagesBatch envThirdTry idParse ["x"] 0 =
        { result := .ok (parsedOf idParse (envThirdTry 0 ["x"]) ++ rest),
          delays := 1000 * 1 ::
            (getMessagesBatch envThirdTry idParse
                (missingOf ["x"] (envThirdTry 0 ["x"])) 1).delays,
          calls := (0, ["x"]) ::
            (getMessagesBatch envThirdTry idParse
                (missingOf ["x"] (envThirdTry 0 ["x"])) 1).calls,
          abandoned := (getMessagesBatch envThirdTry idParse
              (missingOf ["x"] (envThirdTry 0 ["x"])) 1).abandoned } :=
  ⟨by decide, by decide, by decide,
    getMessagesBatch_retry_step.1 envThirdTry idParse ["x"] 0 (by decide)
      (by decide) (by decide)⟩

/-- C3: retries are bounded — on entry with a retry count above 3 the fetcher
logs the unresolved ids and returns an empty result without any network call,
and from retry count `rc` at most `4 - rc` batch calls (so at most 4 total
attempts from the default retry count 0) are ever issued. -/
theorem getMessagesBatch_bounded_retries :
    (∀ (env : Nat → List String → List BatchItem) (parse : String → String)
       (ids : List String) (rc : Nat), rc > 3 →
       getMessagesBatch env parse ids rc =
         { result := .ok [], delays := [], calls := [],
           abandoned := [(rc, ids)] }) ∧
    (∀ (env : Nat → List String → List BatchItem) (parse : String → String)
       (ids : List String) (rc : Nat),
       (getMessagesBatch env parse ids rc).calls.length ≤ 4 - rc) := by
  constructor
  · intro env parse ids rc h
    rw [getMessagesBatch]
    simp [h]
  · intro env parse ids rc
    rw [getMessagesBatch_eq_go]
    exact fetchGo_calls_le env parse 5 ids rc

/-- C3 witness: entry at retry count 4 returns empty with no request. -/
theorem getMessagesBatch_bounded_retries_witness :
    (4 : Nat) > 3 ∧
    getMessagesBatch envAllOk idParse ["a"] 4 =
      { result := .ok [], delays := [], calls := [],
        abandoned := [(4, ["a"])] } :=
  ⟨by decide, getMessagesBatch_bounded_retries.1 envAllOk idParse ["a"] 4
    (by decide)⟩

/-- C4: retry exhaustion is silent — any run on at most 100 ids returns a
normal (non-thrown) result list; and concretely, with an id that fails on all
four attempts next to one that succeeds, the failing id is omitted while the
successful one is delivered, with the exhaustion only recorded in the
abandonment log. -/
theorem getMessagesBatch_exhaustion_silent :
    (∀ (env : Nat → List String → List BatchItem) (parse : String → String)
       (ids : List String) (rc : Nat), ids.length ≤ 100 →
       ∃ msgs, (getMessagesBatch env parse ids rc).result = .ok msgs) ∧
    getMessagesBatch envBadGood idParse ["good", "bad"] 0 =
      { result := .ok ["G"], delays := [1000, 2000, 3000, 4000],
        calls := [(0, ["good", "bad"]), (1, ["bad"]), (2, ["bad"]), (3, ["bad"])],
        abandoned := [(4, ["bad"])] } := by
  constructor
  · intro env parse ids rc hlen
    exact getMessagesBatch_result_ok env parse ids rc hlen
  · rw [getMessagesBatch_eq_go]
    decide

/-- C4 witness: the no-throw part applied to a run in which every id fails on
every attempt. -/
theorem getMessagesBatch_exhaustion_silent_witness :
    (["bad"] : List String).length ≤ 100 ∧
    ∃ msgs, (getMessagesBatch envBadGood idParse ["bad"] 0).result = .ok msgs :=
  ⟨by decide, getMessagesBatch_exhaustion_silent.1 envBadGood idParse ["bad"] 0
    (by decide)⟩

/-- C5 counterexample: a call of `getMessagesBatch` with 101 ids but retry
count 4 does not throw — the retry guard fires first, so the call returns a
normal empty result rather than the validation error the claim promises for
every call with more than 100 ids. -/
theorem getMessagesBatch_oversize_retry_counterexample :
    (List.replicate 101 "x").length > 100 ∧
    getMessagesBatch envAllOk idParse (List.replicate 101 "x") 4 =
      { result := .ok [], delays := [], calls := [],
        abandoned := [(4, List.replicate 101 "x")] } := by
  constructor
  · simp
  · rw [getMessagesBatch_eq_go]
    rfl

/-- C5 (amended): with the retry count at most 3 — in particular at the
default 0 of every external call — a batch of more than 100 ids throws the
validation error synchronously with no network call, and a page size above 20
makes `queryBatchMessages` throw synchronously with no network call; only
when the retry-exhaustion guard fires first (retry count above 3) is the size
check skipped. -/
theorem size_validation_synchronous :
    (∀ (env : Nat → List String → List BatchItem) (parse : String → String)
       (ids : List String) (rc : Nat), rc ≤ 3 → ids.length > 100 →
       getMessagesBatch env parse ids rc =
         { result := .err "Too many messages. Max 1000", delays := [],
           calls := [], abandoned := [] }) ∧
    (∀ (listEnv : Nat → Option String → ListResp)
       (batchEnv : Nat → List String → List BatchItem)
       (parse : String → String) (maxResults : Nat) (pageToken : Option String),
       maxResults > 20 →
       queryBatchMessages listEnv batchEnv parse maxResults pageToken =
         { result := .err "Max results must be 20 or Google will rate limit us and return 429 errors.",
           listCalls := [], batchCalls := [] }) := by
  constructor
  · intro env parse ids rc hrc hlen
    have h1 : ¬ rc > 3 := by omega
    rw [getMessagesBatch]
    simp [h1, hlen]
  · intro listEnv batchEnv parse maxResults pageToken h
    unfold queryBatchMessages
    simp [h]

/-- C5 witness: both validation guards fired on concrete oversized requests. -/
theorem size_validation_synchronous_witness :
    ((0 : Nat) ≤ 3 ∧ (List.replicate 101 "x").length > 100 ∧
      getMessagesBatch envAllOk idParse (List.replicate 101 "x") 0 =
        { result := .err "Too many messages. Max 1000", delays := [],
          calls := [], abandoned := [] }) ∧
    ((21 : Nat) > 20 ∧
      queryBatchMessages listEnvA envAllOk idParse 21 none =
        { result := .err "Max results must be 20 or Google will rate limit us and return 429 errors.",
          listCalls := [], batchCalls := [] }) :=
  ⟨⟨by decide, by simp,
    size_validation_synchronous.1 envAllOk idParse (List.replicate 101 "x") 0
      (by decide) (by simp)⟩,
   ⟨by decide,
    size_validation_synchronous.2 listEnvA envAllOk idParse 21 none (by decide)⟩⟩

/-- C6 counterexample: when the `list` response carries a present-but-empty
`messages` array together with a next-page token, `queryBatchMessages` does
not short-circuit — it returns the response's `nextPageToken` (not absence)
and still invokes the batch fetcher (with zero ids), because the truthiness
guard `!messages.messages` is false for an empty array. -/
theorem queryBatchMessages_empty_array_counterexample :
    queryBatchMessages listEnvEmptyArr envAllOk idParse 20 none =
      { result := .ok [] (some "tok"), listCalls := [(20, none)],
        batchCalls := [(0, [])] } := by
  rw [queryBatchMessages_eq_C]
  rfl

/-- C6 (amended): the short-circuit happens exactly when the `list` response
has no `messages` field at all: then (for a page size within the cap)
`queryBatchMessages` returns an empty page with no `nextPageToken` and does
not invoke the batch fetcher. A present-but-empty id list does not
short-circuit: the batch fetcher is invoked on zero ids and the response's
`nextPageToken` is passed through. -/
theorem queryBatchMessages_no_field_short_circuit
    (listEnv : Nat → Option String → ListResp)
    (batchEnv : Nat → List String → List BatchItem) (parse : String → String)
    (maxResults : Nat) (pageToken : Option String) (hmr : maxResults ≤ 20)
    (habs : (listEnv maxResults pageToken).messages = none) :
    queryBatchMessages listEnv batchEnv parse maxResults pageToken =
      { result := .ok [] none, listCalls := [(maxResults, pageToken)],
        batchCalls := [] } := by
  have h : ¬ maxResults > 20 := by omega
  unfold queryBatchMessages
  simp [h, habs]

/-- C6 witness: the short-circuit on a concrete fieldless response. -/
theorem queryBatchMessages_no_field_short_circuit_witness :
    (20 : Nat) ≤ 20 ∧ (listEnvNoField 20 none).messages = none ∧
    queryBatchMessages listEnvNoField envAllOk idParse 20 none =
      { result := .ok [] none, listCalls := [(20, none)], batchCalls := [] } :=
  ⟨by decide, rfl,
    queryBatchMessages_no_field_short_circuit listEnvNoField envAllOk idParse
      20 none (by decide) rfl⟩

/-- C7: the page loop requests pages of size 20, threading each response's
`nextPageToken` into the next request, appends every page in full, and stops
exactly when the token is absent or the accumulated count has reached
`maxResults`: with `maxResults = 45` and three full pages of 20 it returns
all 60 messages (the bound is not a hard truncation), and with pages of 20,
20 and a final 3 it returns 43 and stops because no token remains. -/
theorem queryBatchMessagesPages_accumulation :
    (queryBatchMessagesPages listEnvA envAllOk idParse 45 10 =
       some { result := .ok (List.replicate 20 "a" ++ List.replicate 20 "b" ++
                List.replicate 20 "c"),
              listCalls := [(20, none), (20, some "t1"), (20, some "t2")] }) ∧
    (List.replicate 20 "a" ++ List.replicate 20 "b" ++
      List.replicate 20 "c").length = 60 ∧
    (queryBatchMessagesPages listEnvB envAllOk idParse 45 10 =
       some { result := .ok (List.replicate 20 "a" ++ List.replicate 20 "b" ++
                List.replicate 3 "c"),
              listCalls := [(20, none), (20, some "t1"), (20, some "t2")] }) ∧
    (List.replicate 20 "a" ++ List.replicate 20 "b" ++
      List.replicate 3 "c").length = 43 := by
  refine ⟨?_, by decide, ?_, by decide⟩
  · unfold queryBatchMessagesPages
    rw [queryPagesGo_eq_C]
    decide
  · unfold queryBatchMessagesPages
    rw [queryPagesGo_eq_C]
    decide

/-- C8: the prior-communication check issues the incoming search
`from:<term> before:<ts>` capped at 2 results and the outgoing search
`to:<term> before:<ts>` capped at 1, merges the two result lists, and is true
exactly when some merged entry's id differs from the excluded message id; in
particular it is false when the only matching message is the excluded one
itself. -/
theorem hasPreviousCommunication_iff :
    (∀ (searchEnv : String → Nat → List (Option String)) (f : String)
       (d : Nat) (m : String),
       hasPreviousCommunicationWithSender searchEnv f d m = true ↔
         ∃ p ∈ searchEnv ("from:" ++ f ++ " before:" ++ toString d) 2 ++
               searchEnv ("to:" ++ f ++ " before:" ++ toString d) 1,
           p ≠ some m) ∧
    hasPreviousCommunicationWithSender envOnlyCur "a@gmail.com" 1000 "cur"
      = false := by
  constructor
  · intro searchEnv f d m
    unfold hasPreviousCommunicationWithSender findPreviousEmailsWithSender
    simp [List.any_eq_true, bne_iff_ne, or_and_right, exists_or]
  · decide

/-- C9: the sender-or-domain variant picks its search term by membership of
the lowercased extracted domain in `PUBLIC_DOMAINS` — the full address for a
public domain, the bare domain otherwise: `"a@acme.com"` is searched as
`"acme.com"` and `"a@gmail.com"` as `"a@gmail.com"`. -/
theorem senderOrDomain_search_term :
    (∀ (f domain : String), extractDomainFromEmail f = some domain →
       senderSearchTerm f =
         if PUBLIC_DOMAINS.contains (toLowerStr domain) then f else domain) ∧
    senderSearchTerm "a@acme.com" = "acme.com" ∧
    senderSearchTerm "a@gmail.com" = "a@gmail.com" ∧
    (∀ (searchEnv : String → Nat → List (Option String)) (d : Nat) (m : String),
       hasPreviousCommunicationsWithSenderOrDomain searchEnv "a@acme.com" d m =
         hasPreviousCommunicationWithSender searchEnv "acme.com" d m ∧
       hasPreviousCommunicationsWithSenderOrDomain searchEnv "a@gmail.com" d m =
         hasPreviousCommunicationWithSender searchEnv "a@gmail.com" d m) := by
  have hacme : senderSearchTerm "a@acme.com" = "acme.com" := by decide
  have hgmail : senderSearchTerm "a@gmail.com" = "a@gmail.com" := by decide
  refine ⟨?_, hacme, hgmail, ?_⟩
  · intro f domain h
    unfold senderSearchTerm
    rw [h]
  · intro searchEnv d m
    unfold hasPreviousCommunicationsWithSenderOrDomain
    rw [hacme, hgmail]
    exact ⟨rfl, rfl⟩

/-- C9 witness: the membership rule applied to the concrete company-domain
address. -/
theorem senderOrDomain_search_term_witness :
    extractDomainFromEmail "a@acme.com" = some "acme.com" ∧
    senderSearchTerm "a@acme.com" =
      if PUBLIC_DOMAINS.contains (toLowerStr "acme.com") then "a@acme.com"
      else "acme.com" :=
  ⟨by decide, senderOrDomain_search_term.1 "a@acme.com" "acme.com" (by decide)⟩

/-- C10: `PUBLIC_DOMAINS` stores `me.com` and `hey.com` with a leading `@`,
which an extracted (lowercased) domain never carries, so the membership test
fails for them and senders at these providers are searched by bare domain —
i.e. they are treated like company domains. -/
theorem publicDomains_me_hey_mismatch :
    (∀ (f d : String), extractDomainFromEmail f = some d →
       toLowerStr d = "me.com" ∨ toLowerStr d = "hey.com" →
       PUBLIC_DOMAINS.contains (toLowerStr d) = false ∧ senderSearchTerm f = d) ∧
    PUBLIC_DOMAINS.contains "@me.com" = true ∧
    PUBLIC_DOMAINS.contains "@hey.com" = true ∧
    senderSearchTerm "x@me.com" = "me.com" ∧
    senderSearchTerm "x@hey.com" = "hey.com" := by
  refine ⟨?_, by decide, by decide, by decide, by decide⟩
  intro f d h hd
  have hc : PUBLIC_DOMAINS.contains (toLowerStr d) = false := by
    rcases hd with h' | h' <;> rw [h'] <;> decide
  refine ⟨hc, ?_⟩
  unfold senderSearchTerm
  rw [h]
  simp only [hc]
  simp

/-- C10 witness: the bare-domain rule applied to a concrete `me.com`
sender. -/
theorem publicDomains_me_hey_mismatch_witness :
    extractDomainFromEmail "x@me.com" = some "me.com" ∧
    toLowerStr "me.com" = "me.com" ∧
    PUBLIC_DOMAINS.contains (toLowerStr "me.com") = false ∧
    senderSearchTerm "x@me.com" = "me.com" :=
  ⟨by decide, by decide,
    (publicDomains_me_hey_mismatch.1 "x@me.com" "me.com" (by decide)
      (Or.inl (by decide))).1,
    (publicDomains_me_hey_mismatch.1 "x@me.com" "me.com" (by decide)
      (Or.inl (by decide))).2⟩
